import Mathlib

/-!
Verification development for the `banterop` validation utilities:
a shallow embedding in Lean 4 of `src/validate/a2a_client.py`
(the `SimpleA2AClient` chat client) and
`src/validate/validate_a2a_card.py` (the agent-card validator),
together with theorems settling the behavioural claims about them.

Strings are modelled as `List Char`; HTTP and the external A2A SDK are
modelled as oracles (explicit outcome parameters), matching the spec's
treatment of the SDK as a black box.
-/

set_option autoImplicit false

namespace Banterop

/-- View of a Lean string literal as the `List Char` the embedding works on. -/
def toL (s : String) : List Char := s.data

/-- Python `sub in s`: substring containment, scanning left to right. -/
def pyContains (sub : List Char) : List Char → Bool
  | [] => sub.isPrefixOf []
  | c :: rest => sub.isPrefixOf (c :: rest) || pyContains sub rest

/-- Fuel-driven worker for `pyReplace`.  At each position, if the (non-empty)
pattern is a prefix of the remaining input, the replacement is emitted and the
pattern-length chunk of input is skipped; otherwise one character is copied.
Fuel bounds the number of steps; `pyReplace` supplies the input length, which
suffices because every step consumes at least one input character. -/
def pyReplaceAux (pat rep : List Char) : Nat → List Char → List Char
  | 0, l => l
  | Nat.succ fuel, l =>
    match l with
    | [] => []
    | c :: rest =>
      if !pat.isEmpty && pat.isPrefixOf (c :: rest) then
        rep ++ pyReplaceAux pat rep fuel ((c :: rest).drop pat.length)
      else
        c :: pyReplaceAux pat rep fuel rest

/-- Python `s.replace(pat, rep)`: replace every non-overlapping occurrence of
`pat` in `s` by `rep`, scanning left to right. -/
def pyReplace (pat rep s : List Char) : List Char :=
  pyReplaceAux pat rep s.length s

/-- Embedding of `SimpleA2AClient._get_agent_card_urls`
(`src/validate/a2a_client.py`, lines 34-49): build the candidate agent-card
URL list from the agent URL. -/
def get_agent_card_urls (agent_url : List Char) : List (List Char) :=
  let urls : List (List Char) := []
  let urls := if pyContains (toL "/a2a") agent_url then
      urls ++ [pyReplace (toL "/a2a") (toL "/.well-known/agent-card.json") agent_url]
    else urls
  let urls := if pyContains (toL "localhost:3003") agent_url then
      urls ++ [pyReplace (toL "/a2a") (toL "/agent-card.json")
        (pyReplace (toL "/api/rooms/") (toL "/rooms/") agent_url)]
    else urls
  urls ++ [agent_url ++ toL "/.well-known/agent-card.json"]

/-- C4: For every input string `agent_url`, `_get_agent_card_urls` returns a
non-empty list whose last element is `agent_url ++ "/.well-known/agent-card.json"`;
if `"/a2a"` occurs in `agent_url` the first element is `agent_url` with `"/a2a"`
replaced by `"/.well-known/agent-card.json"`; and if `"localhost:3003"` occurs in
`agent_url` the list additionally contains `agent_url` with `"/api/rooms/"`
replaced by `"/rooms/"` and `"/a2a"` replaced by `"/agent-card.json"`. -/
theorem c4_agent_card_urls (agent_url : List Char) :
    get_agent_card_urls agent_url ≠ [] ∧
    (get_agent_card_urls agent_url).getLast? =
      some (agent_url ++ toL "/.well-known/agent-card.json") ∧
    (pyContains (toL "/a2a") agent_url = true →
      (get_agent_card_urls agent_url).head? =
        some (pyReplace (toL "/a2a") (toL "/.well-known/agent-card.json") agent_url)) ∧
    (pyContains (toL "localhost:3003") agent_url = true →
      pyReplace (toL "/a2a") (toL "/agent-card.json")
          (pyReplace (toL "/api/rooms/") (toL "/rooms/") agent_url)
        ∈ get_agent_card_urls agent_url) := by
  unfold get_agent_card_urls
  cases ha : pyContains (toL "/a2a") agent_url <;>
    cases hl : pyContains (toL "localhost:3003") agent_url <;>
      simp [List.getLast?_append]

/-- Witness for C4 at a concrete URL containing both the `/a2a` and the
`localhost:3003` patterns. -/
theorem c4_agent_card_urls_witness :
    get_agent_card_urls (toL "http://localhost:3003/api/rooms/abc/a2a") ≠ [] ∧
    (get_agent_card_urls (toL "http://localhost:3003/api/rooms/abc/a2a")).head? =
      some (pyReplace (toL "/a2a") (toL "/.well-known/agent-card.json")
        (toL "http://localhost:3003/api/rooms/abc/a2a")) ∧
    pyReplace (toL "/a2a") (toL "/agent-card.json")
        (pyReplace (toL "/api/rooms/") (toL "/rooms/")
          (toL "http://localhost:3003/api/rooms/abc/a2a"))
      ∈ get_agent_card_urls (toL "http://localhost:3003/api/rooms/abc/a2a") := by
  refine ⟨(c4_agent_card_urls _).1,
    (c4_agent_card_urls _).2.2.1 (by decide),
    (c4_agent_card_urls _).2.2.2 (by decide)⟩

/-! Section: Task-polling model (`SimpleA2AClient.poll_for_updates`, lines 111-205) -/

/-- Message roles from `a2a.types.Role` (only the two used by the client). -/
inductive RoleM where
  | user
  | agent
deriving DecidableEq

/-- The subset of `a2a.types.TaskState` values the client inspects, plus the
remaining non-terminal states it can observe. -/
inductive TaskStateM where
  | submitted
  | working
  | inputRequired
  | completed
  | failed
  | canceled
  | rejected
  | authRequired
deriving DecidableEq

/-- A message as seen by the polling loop: its identifier and role. -/
structure MsgM where
  message_id : List Char
  role : RoleM
deriving DecidableEq

/-- A task status: `state` is `none` when the status object lacks a `state`
attribute (the code guards every access with `hasattr`), and `message` is the
optional status message. -/
structure TaskStatusM where
  state : Option TaskStateM
  message : Option MsgM
deriving DecidableEq

/-- A task as seen by the polling loop. -/
structure TaskM where
  id : List Char
  status : TaskStatusM
  history : List MsgM
deriving DecidableEq

/-- Observable side effects of one poll iteration: the `asyncio.sleep` call
(with its duration) and the `get_task` fetch (with the queried task id). -/
inductive PollEvent where
  | sleep (seconds : ℚ)
  | fetch (taskId : List Char)
deriving DecidableEq

/-- Result of running `poll_for_updates`: number of executed loop-body
iterations, the event trace, the final `messages_received` list, the task
stored by a `break` (if the loop broke), and the client's `current_task`
afterwards. -/
structure PollResult where
  iterations : Nat
  events : List PollEvent
  messages_received : List (List Char)
  brokeTask : Option TaskM
  currentTask : Option TaskM
deriving DecidableEq

/-- Lines 148-156: if the task status carries a message whose id is not yet in
`messages_received`, append the id; when that new message is from the agent,
remember it as `last_agent_message`. -/
def processStatusMsg (st : TaskStatusM) (msgs : List (List Char))
    (lastAgent : Option MsgM) : List (List Char) × Option MsgM :=
  match st.message with
  | none => (msgs, lastAgent)
  | some m =>
    if m.message_id ∈ msgs then (msgs, lastAgent)
    else (msgs ++ [m.message_id], if m.role = RoleM.agent then some m else lastAgent)

/-- Lines 158-164: walk the task history, appending each unseen message id and
tracking the latest agent message among the newly seen ones. -/
def processHistory (history : List MsgM) (msgs : List (List Char))
    (lastAgent : Option MsgM) : List (List Char) × Option MsgM :=
  match history with
  | [] => (msgs, lastAgent)
  | m :: rest =>
    if m.message_id ∈ msgs then processHistory rest msgs lastAgent
    else processHistory rest (msgs ++ [m.message_id])
      (if m.role = RoleM.agent then some m else lastAgent)

/-- Lines 166-199: the loop breaks exactly when the status has a `state`
attribute and that state is `input_required`, `completed`, `failed` or
`canceled` (both break sites store the fetched task into `current_task`). -/
def shouldStop (st : TaskStatusM) : Bool :=
  match st.state with
  | some s =>
    s == TaskStateM.inputRequired || s == TaskStateM.completed ||
      s == TaskStateM.failed || s == TaskStateM.canceled
  | none => false

/-- The `while poll_count < max_polls` loop of `poll_for_updates`, lines
123-202.  `oracle k` is the outcome of the `get_task` call of the iteration
with zero-based index `k` (`none` models a raised exception, which the
`except` clause turns into a plain continue).  `fuel` is the number of
iterations still allowed (`max_polls - poll_count`), `count` the number of
iterations already executed.  Returns the final iteration count, the event
trace, the final `messages_received`, and the task stored by `break` (`none`
when the loop exhausted its iterations without breaking). -/
def pollLoopAux (oracle : Nat → Option TaskM) (interval : ℚ) (taskId : List Char) :
    Nat → Nat → List (List Char) → Option MsgM →
    Nat × List PollEvent × List (List Char) × Option TaskM
  | 0, count, msgs, _ => (count, [], msgs, none)
  | Nat.succ fuel, count, msgs, lastAgent =>
    match oracle count with
    | none =>
      let r := pollLoopAux oracle interval taskId fuel (count + 1) msgs lastAgent
      (r.1, PollEvent.sleep interval :: PollEvent.fetch taskId :: r.2.1, r.2.2)
    | some task =>
      let p1 := processStatusMsg task.status msgs lastAgent
      let p2 := processHistory task.history p1.1 p1.2
      if shouldStop task.status then
        (count + 1, [PollEvent.sleep interval, PollEvent.fetch taskId], p2.1, some task)
      else
        let r := pollLoopAux oracle interval taskId fuel (count + 1) p2.1 p2.2
        (r.1, PollEvent.sleep interval :: PollEvent.fetch taskId :: r.2.1, r.2.2)

/-- Embedding of `SimpleA2AClient.poll_for_updates` with explicit `max_polls`
and `interval` arguments.  When `current_task` is `None` the function returns
at once (line 113-114); otherwise it runs the bounded polling loop, and
`current_task` afterwards is the broken-on task if any, else unchanged. -/
def pollWith (oracle : Nat → Option TaskM) (currentTask : Option TaskM)
    (maxPolls : Nat) (interval : ℚ) : PollResult :=
  match currentTask with
  | none => ⟨0, [], [], none, none⟩
  | some t =>
    let r := pollLoopAux oracle interval t.id maxPolls 0 [] none
    ⟨r.1, r.2.1, r.2.2.1, r.2.2.2,
      match r.2.2.2 with
      | some task => some task
      | none => some t⟩

/-- `poll_for_updates` with its Python default arguments
`max_polls = 10`, `interval = 2.0` (line 111). -/
def poll_for_updates (oracle : Nat → Option TaskM) (currentTask : Option TaskM) :
    PollResult :=
  pollWith oracle currentTask 10 2

/-- The iteration counter never decreases across the loop. -/
theorem pollLoopAux_le_count (oracle : Nat → Option TaskM) (interval : ℚ)
    (taskId : List Char) (fuel : Nat) :
    ∀ count msgs lastAgent,
      count ≤ (pollLoopAux oracle interval taskId fuel count msgs lastAgent).1 := by
  induction fuel with
  | zero => intro count msgs lastAgent; simp [pollLoopAux]
  | succ fuel ih =>
    intro count msgs lastAgent
    simp only [pollLoopAux]
    cases oracle count with
    | none => exact le_trans (Nat.le_succ count) (ih (count + 1) _ _)
    | some task =>
      by_cases h : shouldStop task.status = true
      · simp [h]
      · simp only [h]
        simp only [Bool.false_eq_true, if_false]
        exact le_trans (Nat.le_succ count) (ih (count + 1) _ _)

/-- The loop body runs at most `fuel` more times. -/
theorem pollLoopAux_count_le (oracle : Nat → Option TaskM) (interval : ℚ)
    (taskId : List Char) (fuel : Nat) :
    ∀ count msgs lastAgent,
      (pollLoopAux oracle interval taskId fuel count msgs lastAgent).1 ≤ count + fuel := by
  induction fuel with
  | zero => intro count msgs lastAgent; simp [pollLoopAux]
  | succ fuel ih =>
    intro count msgs lastAgent
    simp only [pollLoopAux]
    cases oracle count with
    | none =>
      exact le_trans (ih (count + 1) msgs lastAgent) (by omega)
    | some task =>
      by_cases h : shouldStop task.status = true
      · simp [h]
      · simp only [h]
        simp only [Bool.false_eq_true, if_false]
        exact le_trans (ih (count + 1) _ _) (by omega)

/-- Each iteration contributes exactly the pair `sleep interval; fetch taskId`
to the event trace, in that order. -/
theorem pollLoopAux_events (oracle : Nat → Option TaskM) (interval : ℚ)
    (taskId : List Char) (fuel : Nat) :
    ∀ count msgs lastAgent,
      (pollLoopAux oracle interval taskId fuel count msgs lastAgent).2.1 =
        (List.replicate ((pollLoopAux oracle interval taskId fuel count msgs lastAgent).1 - count)
          [PollEvent.sleep interval, PollEvent.fetch taskId]).flatten := by
  induction fuel with
  | zero => intro count msgs lastAgent; simp [pollLoopAux]
  | succ fuel ih =>
    intro count msgs lastAgent
    simp only [pollLoopAux]
    cases oracle count with
    | none =>
      have hlow := pollLoopAux_le_count oracle interval taskId fuel (count + 1) msgs lastAgent
      have hev := ih (count + 1) msgs lastAgent
      simp only [hev]
      have hsub : (pollLoopAux oracle interval taskId fuel (count + 1) msgs lastAgent).1 - count =
          ((pollLoopAux oracle interval taskId fuel (count + 1) msgs lastAgent).1 - (count + 1)) + 1 := by
        omega
      simp [hsub, List.replicate_succ]
    | some task =>
      by_cases h : shouldStop task.status = true
      · simp [h, List.replicate_succ]
      · simp only [h]
        simp only [Bool.false_eq_true, if_false]
        set p2 := processHistory task.history
          (processStatusMsg task.status msgs lastAgent).1
          (processStatusMsg task.status msgs lastAgent).2 with hp2
        have hlow := pollLoopAux_le_count oracle interval taskId fuel (count + 1) p2.1 p2.2
        have hev := ih (count + 1) p2.1 p2.2
        simp only [hev]
        have hsub : (pollLoopAux oracle interval taskId fuel (count + 1) p2.1 p2.2).1 - count =
            ((pollLoopAux oracle interval taskId fuel (count + 1) p2.1 p2.2).1 - (count + 1)) + 1 := by
          omega
        simp [hsub, List.replicate_succ]

/-- A task recorded by `break` always satisfies the stop condition. -/
theorem pollLoopAux_broke_shouldStop (oracle : Nat → Option TaskM) (interval : ℚ)
    (taskId : List Char) (fuel : Nat) :
    ∀ count msgs lastAgent task,
      (pollLoopAux oracle interval taskId fuel count msgs lastAgent).2.2.2 = some task →
      shouldStop task.status = true := by
  induction fuel with
  | zero => intro count msgs lastAgent task h; simp [pollLoopAux] at h
  | succ fuel ih =>
    intro count msgs lastAgent task h
    simp only [pollLoopAux] at h
    cases horacle : oracle count with
    | none =>
      rw [horacle] at h
      exact ih (count + 1) msgs lastAgent task h
    | some task2 =>
      rw [horacle] at h
      by_cases hs : shouldStop task2.status = true
      · simp only [hs, if_true] at h
        cases h
        exact hs
      · simp only [hs] at h
        simp only [Bool.false_eq_true, if_false] at h
        exact ih (count + 1) _ _ task h

/-- If the loop stops before spending all its fuel, it broke on some task. -/
theorem pollLoopAux_early_exit (oracle : Nat → Option TaskM) (interval : ℚ)
    (taskId : List Char) (fuel : Nat) :
    ∀ count msgs lastAgent,
      (pollLoopAux oracle interval taskId fuel count msgs lastAgent).1 < count + fuel →
      ∃ task, (pollLoopAux oracle interval taskId fuel count msgs lastAgent).2.2.2 = some task := by
  induction fuel with
  | zero => intro count msgs lastAgent h; simp [pollLoopAux] at h
  | succ fuel ih =>
    intro count msgs lastAgent h
    cases horacle : oracle count with
    | none =>
      simp only [pollLoopAux, horacle] at h ⊢
      exact ih (count + 1) msgs lastAgent (by omega)
    | some task2 =>
      by_cases hs : shouldStop task2.status = true
      · simp [pollLoopAux, horacle, hs]
      · simp only [pollLoopAux, horacle, hs, Bool.false_eq_true, if_false] at h ⊢
        exact ih (count + 1) _ _ (by omega)

/-- If the iteration with zero-based index `count + k` is the first one (from
`count` on) whose fetch yields a task satisfying the stop condition, the loop
breaks exactly there: it executes `k + 1` further iterations and records that
task. -/
theorem pollLoopAux_first_stop (oracle : Nat → Option TaskM) (interval : ℚ)
    (taskId : List Char) (fuel : Nat) :
    ∀ k count msgs lastAgent task,
      k < fuel →
      oracle (count + k) = some task →
      shouldStop task.status = true →
      (∀ j, j < k → ∀ u, oracle (count + j) = some u → shouldStop u.status = false) →
      (pollLoopAux oracle interval taskId fuel count msgs lastAgent).1 = count + k + 1 ∧
      (pollLoopAux oracle interval taskId fuel count msgs lastAgent).2.2.2 = some task := by
  induction fuel with
  | zero => intro k count msgs lastAgent task hk; omega
  | succ fuel ih =>
    intro k count msgs lastAgent task hk horacle hstop hbefore
    cases k with
    | zero =>
      simp only [Nat.add_zero] at horacle
      simp [pollLoopAux, horacle, hstop]
    | succ k =>
      simp only [pollLoopAux]
      cases hfirst : oracle count with
      | none =>
        have hor : oracle (count + 1 + k) = some task := by
          rw [show count + 1 + k = count + (k + 1) by omega]; exact horacle
        have hbef : ∀ j, j < k → ∀ u, oracle (count + 1 + j) = some u →
            shouldStop u.status = false := by
          intro j hj u hu
          refine hbefore (j + 1) (by omega) u ?_
          rw [show count + (j + 1) = count + 1 + j by omega]; exact hu
        have := ih k (count + 1) msgs lastAgent task (by omega) hor hstop hbef
        refine ⟨by rw [this.1]; omega, this.2⟩
      | some task2 =>
        have hs2 : shouldStop task2.status = false :=
          hbefore 0 (by omega) task2 (by simpa using hfirst)
        simp only [hs2, Bool.false_eq_true, if_false]
        have hor : oracle (count + 1 + k) = some task := by
          rw [show count + 1 + k = count + (k + 1) by omega]; exact horacle
        have hbef : ∀ j, j < k → ∀ u, oracle (count + 1 + j) = some u →
            shouldStop u.status = false := by
          intro j hj u hu
          refine hbefore (j + 1) (by omega) u ?_
          rw [show count + (j + 1) = count + 1 + j by omega]; exact hu
        have := ih k (count + 1)
          (processHistory task2.history
            (processStatusMsg task2.status msgs lastAgent).1
            (processStatusMsg task2.status msgs lastAgent).2).1
          (processHistory task2.history
            (processStatusMsg task2.status msgs lastAgent).1
            (processStatusMsg task2.status msgs lastAgent).2).2
          task (by omega) hor hstop hbef
        refine ⟨by rw [this.1]; omega, this.2⟩

/-- `processStatusMsg` extends `messages_received` only with an id that the
membership check found absent, so `Nodup` is preserved. -/
theorem processStatusMsg_nodup (st : TaskStatusM) (msgs : List (List Char))
    (lastAgent : Option MsgM) (h : msgs.Nodup) :
    (processStatusMsg st msgs lastAgent).1.Nodup := by
  unfold processStatusMsg
  cases st.message with
  | none => exact h
  | some m =>
    by_cases hm : m.message_id ∈ msgs
    · simpa [hm] using h
    · simp only [hm, if_false]
      simp [List.nodup_append, h, hm]

/-- `processHistory` likewise preserves `Nodup` of `messages_received`. -/
theorem processHistory_nodup (history : List MsgM) :
    ∀ msgs lastAgent, msgs.Nodup →
      (processHistory history msgs lastAgent).1.Nodup := by
  induction history with
  | nil => intro msgs lastAgent h; simpa [processHistory] using h
  | cons m rest ih =>
    intro msgs lastAgent h
    unfold processHistory
    by_cases hm : m.message_id ∈ msgs
    · simp only [hm, if_true]
      exact ih msgs lastAgent h
    · simp only [hm, if_false]
      exact ih _ _ (by simp [List.nodup_append, h, hm])

/-- Throughout the polling loop, `messages_received` stays duplicate-free. -/
theorem pollLoopAux_nodup (oracle : Nat → Option TaskM) (interval : ℚ)
    (taskId : List Char) (fuel : Nat) :
    ∀ count msgs lastAgent, msgs.Nodup →
      (pollLoopAux oracle interval taskId fuel count msgs lastAgent).2.2.1.Nodup := by
  induction fuel with
  | zero => intro count msgs lastAgent h; simpa [pollLoopAux] using h
  | succ fuel ih =>
    intro count msgs lastAgent h
    cases horacle : oracle count with
    | none =>
      simp only [pollLoopAux, horacle]
      exact ih (count + 1) msgs lastAgent h
    | some task =>
      have h1 := processStatusMsg_nodup task.status msgs lastAgent h
      have h2 := processHistory_nodup task.history
        (processStatusMsg task.status msgs lastAgent).1
        (processStatusMsg task.status msgs lastAgent).2 h1
      by_cases hs : shouldStop task.status = true
      · simpa [pollLoopAux, horacle, hs] using h2
      · simp only [pollLoopAux, horacle, hs, Bool.false_eq_true, if_false]
        exact ih (count + 1) _ _ h2

/-- The stop condition holds exactly at `input_required`, `completed`,
`failed` and `canceled`. -/
theorem shouldStop_iff (st : TaskStatusM) :
    shouldStop st = true ↔
      (st.state = some TaskStateM.inputRequired ∨
       st.state = some TaskStateM.completed ∨
       st.state = some TaskStateM.failed ∨
       st.state = some TaskStateM.canceled) := by
  cases hst : st.state with
  | none => simp [shouldStop, hst]
  | some s => cases s <;> simp [shouldStop, hst]

/-- A concrete task whose status state is `input_required`. -/
def c1Task : TaskM :=
  ⟨toL "task-1", ⟨some TaskStateM.inputRequired, none⟩, []⟩

/-- An oracle whose every `get_task` fetch succeeds and yields `c1Task`. -/
def c1Oracle : Nat → Option TaskM := fun _ => some c1Task

/-- C1 (counterexample): with every fetch succeeding and reporting state
`input_required`, `poll_for_updates` exits after a single iteration — before
reaching the maximum of 10 — even though `input_required` is none of
`completed`, `failed`, `canceled`.  This refutes the claim that early exit
happens only on that three-element terminal set. -/
theorem c1_counterexample :
    (poll_for_updates c1Oracle (some c1Task)).iterations < 10 ∧
    (poll_for_updates c1Oracle (some c1Task)).brokeTask = some c1Task ∧
    c1Task.status.state = some TaskStateM.inputRequired ∧
    ¬(c1Task.status.state = some TaskStateM.completed ∨
      c1Task.status.state = some TaskStateM.failed ∨
      c1Task.status.state = some TaskStateM.canceled) := by
  decide

/-- C1 (amended): for every execution of `poll_for_updates` in which task
fetches succeed, the polling loop exits before reaching its maximum iteration
count only when the fetched task's status state belongs to the fixed set
`{input_required, completed, failed, canceled}`; upon first observing such a
state it performs no further poll iterations (it stops at exactly that
iteration). -/
theorem c1_poll_early_exit (oracle : Nat → Option TaskM) (t : TaskM)
    (maxPolls : Nat) (interval : ℚ) :
    ((pollWith oracle (some t) maxPolls interval).iterations < maxPolls →
      ∃ task, (pollWith oracle (some t) maxPolls interval).brokeTask = some task ∧
        (task.status.state = some TaskStateM.inputRequired ∨
         task.status.state = some TaskStateM.completed ∨
         task.status.state = some TaskStateM.failed ∨
         task.status.state = some TaskStateM.canceled)) ∧
    (∀ k task, k < maxPolls →
      oracle k = some task →
      shouldStop task.status = true →
      (∀ j, j < k → ∀ u, oracle j = some u → shouldStop u.status = false) →
      (pollWith oracle (some t) maxPolls interval).iterations = k + 1 ∧
      (pollWith oracle (some t) maxPolls interval).brokeTask = some task) := by
  constructor
  · intro hlt
    simp only [pollWith] at hlt ⊢
    have hlt0 : (pollLoopAux oracle interval t.id maxPolls 0 [] none).1 < 0 + maxPolls := by
      simpa using hlt
    obtain ⟨task, htask⟩ :=
      pollLoopAux_early_exit oracle interval t.id maxPolls 0 [] none hlt0
    refine ⟨task, htask, ?_⟩
    exact (shouldStop_iff task.status).mp
      (pollLoopAux_broke_shouldStop oracle interval t.id maxPolls 0 [] none task htask)
  · intro k task hk horacle hstop hbefore
    have hfirst := pollLoopAux_first_stop oracle interval t.id maxPolls k 0 [] none task hk
      (by simpa using horacle) hstop (by simpa using hbefore)
    simp only [pollWith]
    exact ⟨by rw [hfirst.1]; omega, hfirst.2⟩

/-- Witness for C1 (amended): the concrete `input_required` run breaks at the
very first iteration and records the fetched task. -/
theorem c1_poll_early_exit_witness :
    (pollWith c1Oracle (some c1Task) 10 2).iterations = 0 + 1 ∧
    (pollWith c1Oracle (some c1Task) 10 2).brokeTask = some c1Task :=
  (c1_poll_early_exit c1Oracle c1Task 10 2).2 0 c1Task (by decide) rfl (by decide)
    (fun j hj => absurd hj (Nat.not_lt_zero j))

/-- C2: for every call to `poll_for_updates` with arguments `max_polls` and
`interval`, the while-loop body executes at most `max_polls` times (default
10), each iteration begins with a sleep of exactly `interval` seconds (default
2.0) followed by the fetch, the function terminates (it is a total function of
the fetch oracle), and when `current_task` is `None` it returns immediately
without any iteration. -/
theorem c2_poll_bounded (oracle : Nat → Option TaskM) (currentTask : Option TaskM)
    (maxPolls : Nat) (interval : ℚ) :
    (pollWith oracle currentTask maxPolls interval).iterations ≤ maxPolls ∧
    (∀ t, currentTask = some t →
      (pollWith oracle currentTask maxPolls interval).events =
        (List.replicate (pollWith oracle currentTask maxPolls interval).iterations
          [PollEvent.sleep interval, PollEvent.fetch t.id]).flatten) ∧
    (currentTask = none →
      pollWith oracle currentTask maxPolls interval = ⟨0, [], [], none, none⟩) ∧
    poll_for_updates oracle currentTask = pollWith oracle currentTask 10 2 := by
  refine ⟨?_, ?_, ?_, rfl⟩
  · cases currentTask with
    | none => simp [pollWith]
    | some t =>
      simp only [pollWith]
      have := pollLoopAux_count_le oracle interval t.id maxPolls 0 [] none
      simpa using this
  · intro t ht
    subst ht
    simp only [pollWith]
    have := pollLoopAux_events oracle interval t.id maxPolls 0 [] none
    simpa using this
  · intro h; subst h; rfl

/-- Witness for C2 at a concrete oracle whose fetches always raise: three
iterations run, each contributing its sleep-then-fetch event pair. -/
theorem c2_poll_bounded_witness :
    (pollWith (fun _ => none) (some ⟨toL "t", ⟨some TaskStateM.working, none⟩, []⟩) 3 2).iterations ≤ 3 ∧
    (pollWith (fun _ => none) (some ⟨toL "t", ⟨some TaskStateM.working, none⟩, []⟩) 3 2).events =
      (List.replicate
        (pollWith (fun _ => none) (some ⟨toL "t", ⟨some TaskStateM.working, none⟩, []⟩) 3 2).iterations
        [PollEvent.sleep 2, PollEvent.fetch (toL "t")]).flatten ∧
    pollWith (fun _ => none) none 3 2 = ⟨0, [], [], none, none⟩ :=
  ⟨(c2_poll_bounded (fun _ => none) (some ⟨toL "t", ⟨some TaskStateM.working, none⟩, []⟩) 3 2).1,
   (c2_poll_bounded (fun _ => none) (some ⟨toL "t", ⟨some TaskStateM.working, none⟩, []⟩) 3 2).2.1
     ⟨toL "t", ⟨some TaskStateM.working, none⟩, []⟩ rfl,
   (c2_poll_bounded (fun _ => none) none 3 2).2.2.1 rfl⟩

/-- C3: throughout every execution of `poll_for_updates` the
`messages_received` list contains no duplicate message identifiers: from any
loop state with a duplicate-free list, the list stays duplicate-free, and the
final list of a full run is duplicate-free (each id is appended only after the
membership check fails to find it). -/
theorem c3_messages_nodup (oracle : Nat → Option TaskM) (interval : ℚ)
    (taskId : List Char) (fuel count : Nat) (msgs : List (List Char))
    (lastAgent : Option MsgM) (currentTask : Option TaskM) :
    (msgs.Nodup →
      (pollLoopAux oracle interval taskId fuel count msgs lastAgent).2.2.1.Nodup) ∧
    (poll_for_updates oracle currentTask).messages_received.Nodup := by
  constructor
  · exact pollLoopAux_nodup oracle interval taskId fuel count msgs lastAgent
  · cases currentTask with
    | none => simp [poll_for_updates, pollWith]
    | some t =>
      simp only [poll_for_updates, pollWith]
      exact pollLoopAux_nodup oracle 2 t.id 10 0 [] none (List.nodup_nil)

/-- Witness for C3: a run whose history repeatedly reports the same two
message ids ends with a duplicate-free `messages_received`. -/
theorem c3_messages_nodup_witness :
    (pollLoopAux (fun _ => some ⟨toL "t", ⟨some TaskStateM.working, none⟩,
        [⟨toL "m1", RoleM.agent⟩, ⟨toL "m2", RoleM.user⟩, ⟨toL "m1", RoleM.agent⟩]⟩)
      2 (toL "t") 4 0 [toL "m0"] none).2.2.1.Nodup ∧
    (poll_for_updates (fun _ => some ⟨toL "t", ⟨some TaskStateM.working, none⟩,
        [⟨toL "m1", RoleM.agent⟩, ⟨toL "m2", RoleM.user⟩, ⟨toL "m1", RoleM.agent⟩]⟩)
      (some ⟨toL "t", ⟨some TaskStateM.working, none⟩, []⟩)).messages_received.Nodup :=
  ⟨(c3_messages_nodup (fun _ => some ⟨toL "t", ⟨some TaskStateM.working, none⟩,
        [⟨toL "m1", RoleM.agent⟩, ⟨toL "m2", RoleM.user⟩, ⟨toL "m1", RoleM.agent⟩]⟩)
      2 (toL "t") 4 0 [toL "m0"] none none).1 (by decide),
   (c3_messages_nodup (fun _ => some ⟨toL "t", ⟨some TaskStateM.working, none⟩,
        [⟨toL "m1", RoleM.agent⟩, ⟨toL "m2", RoleM.user⟩, ⟨toL "m1", RoleM.agent⟩]⟩)
      2 (toL "t") 4 0 [toL "m0"] none
      (some ⟨toL "t", ⟨some TaskStateM.working, none⟩, []⟩)).2⟩

/-! Section: Agent-card fetching in `SimpleA2AClient.connect` (lines 51-109) -/

/-- A JSON value, as produced by `response.json()`. -/
inductive JsonV where
  | null
  | bool (b : Bool)
  | num (n : Int)
  | str (s : List Char)
  | arr (elems : List JsonV)
  | obj (fields : List (List Char × JsonV))

/-- Python truthiness of a JSON value, as tested by
`if not agent_card_data:` on line 74. -/
def truthy : JsonV → Bool
  | .null => false
  | .bool b => b
  | .num n => n != 0
  | .str s => !s.isEmpty
  | .arr elems => !elems.isEmpty
  | .obj fields => !fields.isEmpty

/-- Outcome of one `self.http_client.get(url)` call inside `connect`'s loop:
either the GET raises, or it returns a response with a status code and a body
that `response.json()` parses to `some` JSON value (`none` when `.json()`
raises). -/
inductive FetchOutcome where
  | raise
  | resp (status : Nat) (body : Option JsonV)

/-- The HTTP status of a fetch outcome, when the GET returned a response. -/
def statusOf : FetchOutcome → Option Nat
  | .raise => none
  | .resp status _ => some status

/-- A fetch outcome counts as a hit for `connect`'s loop when the status is
200 and the body parses as JSON. -/
def is200Json : FetchOutcome → Bool
  | .raise => false
  | .resp status body => status == 200 && body.isSome

/-- The parsed JSON body of a fetch outcome, if any. -/
def bodyOf : FetchOutcome → Option JsonV
  | .raise => none
  | .resp _ body => body

/-- The `for url in card_urls` loop of `connect`, lines 63-72.  `fetch u` is
the outcome of the GET to `u`.  Returns the list of URLs actually requested
(in order) and the JSON body the loop broke on (`none` when the loop ran off
the end of the list).  A raised GET or a raised `response.json()` is caught
and the loop continues; a non-200 response also continues. -/
def tryUrls (fetch : List Char → FetchOutcome) : List (List Char) →
    List (List Char) × Option JsonV
  | [] => ([], none)
  | u :: rest =>
    match fetch u with
    | .raise =>
      let r := tryUrls fetch rest
      (u :: r.1, r.2)
    | .resp status body =>
      if status == 200 then
        match body with
        | some j => ([u], some j)
        | none =>
          let r := tryUrls fetch rest
          (u :: r.1, r.2)
      else
        let r := tryUrls fetch rest
        (u :: r.1, r.2)

/-- Lines 79-81 of `connect`: if the card data lacks a `'version'` key,
insert `'version': '1.0.0'` before validation.  Key membership is Python's
`'version' not in agent_card_data`. -/
def hasKey (k : List Char) (fields : List (List Char × JsonV)) : Bool :=
  fields.any (fun p => p.1 == k)

/-- The compatibility fix-up applied by `connect` to the fetched card data. -/
def fixVersion : JsonV → JsonV
  | .obj fields =>
    if hasKey (toL "version") fields then .obj fields
    else .obj (fields ++ [(toL "version", JsonV.str (toL "1.0.0"))])
  | j => j

/-- What `connect` does with the loop's outcome, lines 74-83: with no (truthy)
card data it prints an error and returns `False`; otherwise it applies the
version fix-up and hands the result to `AgentCard.model_validate`. -/
inductive ConnectStage where
  | noCard
  | toValidate (data : JsonV)

/-- Embedding of `connect` up to the call into the external SDK: fetch the
candidate URLs in order, then either fail (`noCard`, returning `False`) or
pass the fixed-up card data to schema validation. -/
def connectStage (fetch : List Char → FetchOutcome) (agent_url : List Char) :
    ConnectStage :=
  match (tryUrls fetch (get_agent_card_urls agent_url)).2 with
  | none => .noCard
  | some j => if truthy j then .toValidate (fixVersion j) else .noCard

/-- If no URL in the list yields a 200 response with a JSON-decodable body,
the loop requests every URL and ends with no card data. -/
theorem tryUrls_none (fetch : List Char → FetchOutcome) (urls : List (List Char))
    (h : ∀ v ∈ urls, is200Json (fetch v) = false) :
    tryUrls fetch urls = (urls, none) := by
  induction urls with
  | nil => rfl
  | cons u rest ih =>
    have hu : is200Json (fetch u) = false := h u (List.mem_cons_self u rest)
    have hrest := ih (fun v hv => h v (List.mem_cons_of_mem u hv))
    cases hf : fetch u with
    | raise => simp [tryUrls, hf, hrest]
    | resp status body =>
      rw [hf] at hu
      by_cases h2 : (status == 200) = true
      · have hb : body.isSome = false := by
          simpa [is200Json, h2] using hu
        have hbn : body = none := by
          cases body with
          | none => rfl
          | some j => simp at hb
        subst hbn
        simp [tryUrls, hf, h2, hrest]
      · have h2f : (status == 200) = false := by
          cases h3 : (status == 200) with
          | true => exact absurd h3 h2
          | false => rfl
        simp [tryUrls, hf, h2f, hrest]

/-- If the URLs before `u` all fail the 200-with-JSON test and `u` passes it,
the loop requests exactly the URLs up to and including `u` and returns `u`'s
JSON body. -/
theorem tryUrls_first (fetch : List Char → FetchOutcome) (pre : List (List Char)) :
    ∀ u post, (∀ v ∈ pre, is200Json (fetch v) = false) →
      is200Json (fetch u) = true →
      tryUrls fetch (pre ++ u :: post) = (pre ++ [u], bodyOf (fetch u)) := by
  induction pre with
  | nil =>
    intro u post _ hu
    cases hf : fetch u with
    | raise => rw [hf] at hu; simp [is200Json] at hu
    | resp status body =>
      rw [hf] at hu
      have h2 : (status == 200) = true := by
        cases h3 : (status == 200) with
        | true => rfl
        | false => simp [is200Json, h3] at hu
      have hb : body.isSome = true := by simpa [is200Json, h2] using hu
      obtain ⟨j, hj⟩ := Option.isSome_iff_exists.mp hb
      subst hj
      simp [tryUrls, hf, h2, bodyOf]
  | cons p pre' ih =>
    intro u post hpre hu
    have hp : is200Json (fetch p) = false := hpre p (List.mem_cons_self p pre')
    have hrest := ih u post (fun v hv => hpre v (List.mem_cons_of_mem p hv)) hu
    cases hf : fetch p with
    | raise => simp [tryUrls, hf, hrest]
    | resp status body =>
      rw [hf] at hp
      by_cases h2 : (status == 200) = true
      · have hb : body.isSome = false := by
          simpa [is200Json, h2] using hp
        have hbn : body = none := by
          cases body with
          | none => rfl
          | some j => simp at hb
        subst hbn
        simp [tryUrls, hf, h2, hrest]
      · have h2f : (status == 200) = false := by
          cases h3 : (status == 200) with
          | true => exact absurd h3 h2
          | false => rfl
        simp [tryUrls, hf, h2f, hrest]

/-- A concrete fetch oracle under which the first candidate URL answers 200
with a body that is not valid JSON, and every other URL answers 200 with a
JSON object body. -/
def c5Fetch : List Char → FetchOutcome := fun u =>
  if u = toL "http://x/.well-known/agent-card.json" then FetchOutcome.resp 200 none
  else FetchOutcome.resp 200 (some (JsonV.obj [(toL "name", JsonV.str (toL "a"))]))

/-- C5 (counterexample): for `agent_url = "http://x/a2a"` the first candidate
URL is `"http://x/.well-known/agent-card.json"`; under `c5Fetch` that URL's
response has status code 200, yet `connect`'s loop issues a further GET (its
`response.json()` raises, so the `except` clause moves on), requesting both
candidate URLs.  This refutes the claim that no further GETs are issued after
the first URL whose response has status 200. -/
theorem c5_counterexample :
    (get_agent_card_urls (toL "http://x/a2a")).head? =
      some (toL "http://x/.well-known/agent-card.json") ∧
    statusOf (c5Fetch (toL "http://x/.well-known/agent-card.json")) = some 200 ∧
    (tryUrls c5Fetch (get_agent_card_urls (toL "http://x/a2a"))).1 =
      get_agent_card_urls (toL "http://x/a2a") ∧
    (get_agent_card_urls (toL "http://x/a2a")).length = 2 := by
  decide

/-- C5 (amended): `connect` issues HTTP GET requests to the candidate
agent-card URLs sequentially, in the order produced by `_get_agent_card_urls`;
it uses the JSON body of the first URL whose response has status code 200 and
whose body parses as JSON as the agent card, issuing no further GETs after
that (GETs that raise, non-200 responses, and 200 responses whose body fails
to parse as JSON make it move on to the next URL); and it returns `False`
when no candidate URL yields such a response. -/
theorem c5_connect_sequential (fetch : List Char → FetchOutcome)
    (urls pre post : List (List Char)) (u agent_url : List Char) :
    ((∀ v ∈ urls, is200Json (fetch v) = false) → tryUrls fetch urls = (urls, none)) ∧
    (urls = pre ++ u :: post →
      (∀ v ∈ pre, is200Json (fetch v) = false) →
      is200Json (fetch u) = true →
      tryUrls fetch urls = (pre ++ [u], bodyOf (fetch u))) ∧
    ((∀ v ∈ get_agent_card_urls agent_url, is200Json (fetch v) = false) →
      connectStage fetch agent_url = ConnectStage.noCard) := by
  refine ⟨tryUrls_none fetch urls, ?_, ?_⟩
  · intro hurls hpre hu
    subst hurls
    exact tryUrls_first fetch pre u post hpre hu
  · intro hnone
    have h := tryUrls_none fetch (get_agent_card_urls agent_url) hnone
    simp [connectStage, h]

/-- Witness for C5 (amended): with the first candidate failing with a 404 and
the second answering 200 with a JSON object, the loop requests exactly the
two URLs and returns the second body; and an all-404 oracle leaves `connect`
with no card. -/
theorem c5_connect_sequential_witness :
    tryUrls
        (fun v => if v = toL "http://y/a" then FetchOutcome.resp 404 none
          else FetchOutcome.resp 200 (some (JsonV.obj [(toL "name", JsonV.str (toL "a"))])))
        (toL "http://y/a" :: toL "http://y/b" :: []) =
      (toL "http://y/a" :: [toL "http://y/b"],
        bodyOf ((fun v => if v = toL "http://y/a" then FetchOutcome.resp 404 none
          else FetchOutcome.resp 200 (some (JsonV.obj [(toL "name", JsonV.str (toL "a"))])))
          (toL "http://y/b"))) ∧
    connectStage (fun _ => FetchOutcome.resp 404 none) (toL "http://y/a2a") =
      ConnectStage.noCard :=
  ⟨(c5_connect_sequential
      (fun v => if v = toL "http://y/a" then FetchOutcome.resp 404 none
        else FetchOutcome.resp 200 (some (JsonV.obj [(toL "name", JsonV.str (toL "a"))])))
      (toL "http://y/a" :: toL "http://y/b" :: []) [toL "http://y/a"] []
      (toL "http://y/b") (toL "http://y/a2a")).2.1 rfl (by decide) (by decide),
   (c5_connect_sequential (fun _ => FetchOutcome.resp 404 none)
      [] [] [] [] (toL "http://y/a2a")).2.2 (by
        intro v hv
        rfl)⟩

/-! Section: Agent-card validator (`src/validate/validate_a2a_card.py`) -/

/-- `AgentCard.provider` as printed by the validator. -/
structure ProviderM where
  organization : List Char
  url : Option (List Char)
deriving DecidableEq

/-- A capability extension as printed by the validator. -/
structure ExtensionM where
  uri : List Char
  description : List Char
  required : Bool
deriving DecidableEq

/-- `AgentCard.capabilities` as printed by the validator. -/
structure CapabilitiesM where
  streaming : Option Bool
  push_notifications : Option Bool
  state_transition_history : Option Bool
  extensions : Option (List ExtensionM)
deriving DecidableEq

/-- An agent skill as printed by the validator. -/
structure SkillM where
  id : List Char
  name : List Char
  description : List Char
  tags : List (List Char)
deriving DecidableEq

/-- An additional interface as printed by the validator. -/
structure InterfaceM where
  url : List Char
  transport : List Char
deriving DecidableEq

/-- The fields of a validated `AgentCard` that the validator prints. -/
structure CardM where
  name : List Char
  protocol_version : List Char
  description : List Char
  url : List Char
  version : List Char
  preferred_transport : Option (List Char)
  provider : Option ProviderM
  capabilities : Option CapabilitiesM
  skills : List SkillM
  additional_interfaces : Option (List InterfaceM)
  default_input_modes : List (List Char)
  default_output_modes : List (List Char)
deriving DecidableEq

/-- One entry of `e.errors()` from a pydantic `ValidationError`: the field
location path, the message, and the optional `input` and `ctx` entries. -/
structure ValErrM where
  loc : List (List Char)
  msg : List Char
  input : Option JsonV
  ctx : Option (List Char)

/-- Outcome of `AgentCard.model_validate` in the external SDK: a validated
card, or a `ValidationError` carrying a list of errors. -/
inductive ValResult where
  | ok (card : CardM)
  | err (errors : List ValErrM)

/-- Observable actions of `validate_agent_card_from_url`: the single HTTP GET,
the prints (abstracted to structured events, one per `print` block), and the
error prints of each `except` handler. -/
inductive VEvent where
  | httpGet (url : List Char)
  | fetchedOk (status : Nat) (size : Nat)
  | validationPassed
  | fieldName (v : List Char)
  | fieldProtocolVersion (v : List Char)
  | fieldDescription (v : List Char)
  | fieldUrl (v : List Char)
  | fieldVersion (v : List Char)
  | fieldPreferredTransport (v : Option (List Char))
  | providerOrg (v : List Char)
  | providerUrl (v : List Char)
  | capStreaming (v : Option Bool)
  | capPush (v : Option Bool)
  | capHistory (v : Option Bool)
  | extensionInfo (e : ExtensionM)
  | skillInfo (s : SkillM)
  | interfaceInfo (i : InterfaceM)
  | inputModes (ms : List (List Char))
  | outputModes (ms : List (List Char))
  | fullModel (c : CardM)
  | validationFailed
  | valError (e : ValErrM)
  | rawJson (j : JsonV)
  | errTimeout
  | errConnection (url : List Char)
  | errHttpStatus (status : Nat)
  | errInvalidJson
  | errUnexpected

/-- Lines 47-52: the provider block, printed when the card has a provider;
the provider URL line is printed only when present. -/
def providerEvents (po : Option ProviderM) : List VEvent :=
  match po with
  | some p =>
    VEvent.providerOrg p.organization ::
      (match p.url with
       | some u => [VEvent.providerUrl u]
       | none => [])
  | none => []

/-- Lines 54-66: the capabilities block with its three flags, followed by one
line per extension (the extensions loop prints nothing for an absent or empty
list). -/
def capabilitiesEvents (co : Option CapabilitiesM) : List VEvent :=
  match co with
  | some cap =>
    [VEvent.capStreaming cap.streaming, VEvent.capPush cap.push_notifications,
     VEvent.capHistory cap.state_transition_history]
      ++ ((cap.extensions).getD []).map VEvent.extensionInfo
  | none => []

/-- Line 85-86: the default input modes line, printed only for a non-empty
list (Python truthiness of the list). -/
def inputModesEvents (ms : List (List Char)) : List VEvent :=
  if ms.isEmpty then [] else [VEvent.inputModes ms]

/-- Line 87-88: the default output modes line, printed only for a non-empty
list. -/
def outputModesEvents (ms : List (List Char)) : List VEvent :=
  if ms.isEmpty then [] else [VEvent.outputModes ms]

/-- Lines 38-88: the per-field prints of the validated card, in program
order: the six scalar fields (description truncated to 80 characters), then
the provider block, capabilities block, skills, additional interfaces and
input/output modes, each guarded by the code's Python-truthiness `if`s. -/
def printCardDetails (c : CardM) : List VEvent :=
  [VEvent.fieldName c.name, VEvent.fieldProtocolVersion c.protocol_version,
   VEvent.fieldDescription (c.description.take 80), VEvent.fieldUrl c.url,
   VEvent.fieldVersion c.version, VEvent.fieldPreferredTransport c.preferred_transport]
  ++ providerEvents c.provider
  ++ capabilitiesEvents c.capabilities
  ++ c.skills.map VEvent.skillInfo
  ++ ((c.additional_interfaces).getD []).map VEvent.interfaceInfo
  ++ inputModesEvents c.default_input_modes
  ++ outputModesEvents c.default_output_modes

/-- Lines 34-112: what the validator does with the parsed JSON once the fetch
succeeded, as a function of the SDK's validation result.  On success it prints
the card details and the full validated model and returns normally; on a
`ValidationError` it prints every reported error and the raw JSON received,
then exits with status 1. -/
def afterFetch (url : List Char) (status : Nat) (text : List Char) (j : JsonV)
    (vr : ValResult) : List VEvent × Option Nat :=
  match vr with
  | .ok card =>
    ([VEvent.httpGet url, VEvent.fetchedOk status text.length, VEvent.validationPassed]
      ++ printCardDetails card ++ [VEvent.fullModel card], none)
  | .err errs =>
    ([VEvent.httpGet url, VEvent.fetchedOk status text.length, VEvent.validationFailed]
      ++ errs.map VEvent.valError ++ [VEvent.rawJson j], some 1)

/-- Outcome of the single `requests.get(url, timeout=10)` call plus
`raise_for_status()` and `response.json()`: a timeout, a connection error, an
HTTP error status, or a response with status, body text, and `some` parsed
JSON (`none` when the body is not valid JSON). -/
inductive HttpOutcome where
  | timeout
  | connError
  | httpError (status : Nat) (text : List Char)
  | ok (status : Nat) (text : List Char) (json : Option JsonV)

/-- Embedding of `validate_agent_card_from_url` (lines 16-134): result is the
event trace and the exit status (`some 1` for `sys.exit(1)`, `none` for a
normal return).  Each `except` handler prints its error and exits with 1. -/
def validate_agent_card_from_url (url : List Char) (fetchO : HttpOutcome)
    (validate : JsonV → ValResult) : List VEvent × Option Nat :=
  match fetchO with
  | .timeout => ([VEvent.httpGet url, VEvent.errTimeout], some 1)
  | .connError => ([VEvent.httpGet url, VEvent.errConnection url], some 1)
  | .httpError status _text => ([VEvent.httpGet url, VEvent.errHttpStatus status], some 1)
  | .ok _status _text none => ([VEvent.httpGet url, VEvent.errInvalidJson], some 1)
  | .ok status text (some j) => afterFetch url status text j (validate j)

/-- Recognizer for the HTTP GET event. -/
def isGet : VEvent → Bool
  | .httpGet _ => true
  | _ => false

/-- Recognizer for the error prints of the `except` handlers. -/
def isErrorEvent : VEvent → Bool
  | .errTimeout => true
  | .errConnection _ => true
  | .errHttpStatus _ => true
  | .errInvalidJson => true
  | .errUnexpected => true
  | _ => false

/-- Transport-level failures of the single request: timeout, connection
error, HTTP error status, or a body that is not valid JSON. -/
def isTransportFailure : HttpOutcome → Bool
  | .timeout => true
  | .connError => true
  | .httpError _ _ => true
  | .ok _ _ none => true
  | .ok _ _ (some _) => false

/-- No provider-block print is an HTTP GET. -/
theorem providerEvents_no_get (po : Option ProviderM) :
    ∀ e ∈ providerEvents po, isGet e = false := by
  intro e he
  rcases po with _ | ⟨org, purl⟩
  · simp [providerEvents] at he
  · rcases purl with _ | pu
    · simp [providerEvents] at he
      subst he; rfl
    · simp [providerEvents] at he
      rcases he with rfl | rfl <;> rfl

/-- No capabilities-block print is an HTTP GET. -/
theorem capabilitiesEvents_no_get (co : Option CapabilitiesM) :
    ∀ e ∈ capabilitiesEvents co, isGet e = false := by
  intro e he
  rcases co with _ | cap
  · simp [capabilitiesEvents] at he
  · simp [capabilitiesEvents] at he
    rcases he with rfl | rfl | rfl | ⟨x, _, rfl⟩ <;> rfl

/-- Concatenation preserves "contains no HTTP GET event". -/
theorem no_get_append {l1 l2 : List VEvent}
    (h1 : ∀ e ∈ l1, isGet e = false) (h2 : ∀ e ∈ l2, isGet e = false) :
    ∀ e ∈ l1 ++ l2, isGet e = false := by
  intro e he
  rcases List.mem_append.mp he with h | h
  · exact h1 e h
  · exact h2 e h

/-- No list of mapped events is an HTTP GET, for any constructor other than
`httpGet` itself. -/
theorem map_no_get {α : Type} (f : α → VEvent) (hf : ∀ a, isGet (f a) = false)
    (l : List α) : ∀ e ∈ l.map f, isGet e = false := by
  intro e he
  rcases List.mem_map.mp he with ⟨x, _, rfl⟩
  exact hf x

/-- The input-modes line is never an HTTP GET. -/
theorem inputModesEvents_no_get (ms : List (List Char)) :
    ∀ e ∈ inputModesEvents ms, isGet e = false := by
  intro e he
  by_cases h : ms.isEmpty
  · rw [inputModesEvents, if_pos h] at he; simp at he
  · rw [inputModesEvents, if_neg h] at he
    simp at he; subst he; rfl

/-- The output-modes line is never an HTTP GET. -/
theorem outputModesEvents_no_get (ms : List (List Char)) :
    ∀ e ∈ outputModesEvents ms, isGet e = false := by
  intro e he
  by_cases h : ms.isEmpty
  · rw [outputModesEvents, if_pos h] at he; simp at he
  · rw [outputModesEvents, if_neg h] at he
    simp at he; subst he; rfl

/-- No card-details print is an HTTP GET. -/
theorem printCardDetails_no_get (c : CardM) :
    ∀ e ∈ printCardDetails c, isGet e = false := by
  unfold printCardDetails
  refine no_get_append (no_get_append (no_get_append (no_get_append (no_get_append
    (no_get_append ?_ (providerEvents_no_get c.provider))
    (capabilitiesEvents_no_get c.capabilities))
    (map_no_get VEvent.skillInfo (fun a => rfl) c.skills))
    (map_no_get VEvent.interfaceInfo (fun a => rfl) ((c.additional_interfaces).getD [])))
    (inputModesEvents_no_get c.default_input_modes))
    (outputModesEvents_no_get c.default_output_modes)
  intro e he
  simp only [List.mem_cons, List.not_mem_nil, or_false] at he
  rcases he with rfl | rfl | rfl | rfl | rfl | rfl <;> rfl

/-- C6: when the fetched JSON fails the SDK's agent-card schema validation,
`validate_agent_card_from_url` prints every reported validation error and the
raw JSON received and exits with status code 1; when validation succeeds it
prints the validated card's fields and the full validated model and does not
exit with an error status. -/
theorem c6_validator_outcomes (url : List Char) (status : Nat) (text : List Char)
    (j : JsonV) (validate : JsonV → ValResult) :
    (∀ errs, validate j = ValResult.err errs →
      (validate_agent_card_from_url url (HttpOutcome.ok status text (some j)) validate).2 = some 1 ∧
      (∀ e ∈ errs, VEvent.valError e ∈
        (validate_agent_card_from_url url (HttpOutcome.ok status text (some j)) validate).1) ∧
      VEvent.rawJson j ∈
        (validate_agent_card_from_url url (HttpOutcome.ok status text (some j)) validate).1) ∧
    (∀ card, validate j = ValResult.ok card →
      (validate_agent_card_from_url url (HttpOutcome.ok status text (some j)) validate).2 = none ∧
      VEvent.validationPassed ∈
        (validate_agent_card_from_url url (HttpOutcome.ok status text (some j)) validate).1 ∧
      VEvent.fieldName card.name ∈
        (validate_agent_card_from_url url (HttpOutcome.ok status text (some j)) validate).1 ∧
      VEvent.fieldProtocolVersion card.protocol_version ∈
        (validate_agent_card_from_url url (HttpOutcome.ok status text (some j)) validate).1 ∧
      VEvent.fieldDescription (card.description.take 80) ∈
        (validate_agent_card_from_url url (HttpOutcome.ok status text (some j)) validate).1 ∧
      VEvent.fieldUrl card.url ∈
        (validate_agent_card_from_url url (HttpOutcome.ok status text (some j)) validate).1 ∧
      VEvent.fieldVersion card.version ∈
        (validate_agent_card_from_url url (HttpOutcome.ok status text (some j)) validate).1 ∧
      VEvent.fieldPreferredTransport card.preferred_transport ∈
        (validate_agent_card_from_url url (HttpOutcome.ok status text (some j)) validate).1 ∧
      VEvent.fullModel card ∈
        (validate_agent_card_from_url url (HttpOutcome.ok status text (some j)) validate).1) := by
  constructor
  · intro errs h
    refine ⟨by simp [validate_agent_card_from_url, afterFetch, h], ?_, ?_⟩
    · intro e he
      simp only [validate_agent_card_from_url, afterFetch, h]
      exact List.mem_append_left _
        (List.mem_append_right _ (List.mem_map_of_mem _ he))
    · simp [validate_agent_card_from_url, afterFetch, h]
  · intro card h
    refine ⟨by simp [validate_agent_card_from_url, afterFetch, h], ?_, ?_, ?_, ?_, ?_, ?_, ?_, ?_⟩ <;>
      simp [validate_agent_card_from_url, afterFetch, h, printCardDetails]

/-- A concrete validation error (a missing required field). -/
def c6Err : ValErrM := ⟨[toL "version"], toL "Field required", none, none⟩

/-- A concrete validated card with only the required scalar fields. -/
def c6Card : CardM :=
  ⟨toL "card-name", toL "0.3.0", toL "a card", toL "http://u", toL "1.0.0",
    none, none, none, [], none, [], []⟩

/-- Witness for C6: a failing validation prints its error and the raw JSON
and exits 1; a successful validation returns normally and prints the name. -/
theorem c6_validator_outcomes_witness :
    (validate_agent_card_from_url (toL "http://u")
      (HttpOutcome.ok 200 (toL "body") (some JsonV.null))
      (fun _ => ValResult.err [c6Err])).2 = some 1 ∧
    VEvent.valError c6Err ∈ (validate_agent_card_from_url (toL "http://u")
      (HttpOutcome.ok 200 (toL "body") (some JsonV.null))
      (fun _ => ValResult.err [c6Err])).1 ∧
    VEvent.rawJson JsonV.null ∈ (validate_agent_card_from_url (toL "http://u")
      (HttpOutcome.ok 200 (toL "body") (some JsonV.null))
      (fun _ => ValResult.err [c6Err])).1 ∧
    (validate_agent_card_from_url (toL "http://u")
      (HttpOutcome.ok 200 (toL "body") (some JsonV.null))
      (fun _ => ValResult.ok c6Card)).2 = none ∧
    VEvent.fieldName c6Card.name ∈ (validate_agent_card_from_url (toL "http://u")
      (HttpOutcome.ok 200 (toL "body") (some JsonV.null))
      (fun _ => ValResult.ok c6Card)).1 :=
  ⟨((c6_validator_outcomes (toL "http://u") 200 (toL "body") JsonV.null
      (fun _ => ValResult.err [c6Err])).1 [c6Err] rfl).1,
   ((c6_validator_outcomes (toL "http://u") 200 (toL "body") JsonV.null
      (fun _ => ValResult.err [c6Err])).1 [c6Err] rfl).2.1 c6Err (by simp),
   ((c6_validator_outcomes (toL "http://u") 200 (toL "body") JsonV.null
      (fun _ => ValResult.err [c6Err])).1 [c6Err] rfl).2.2,
   ((c6_validator_outcomes (toL "http://u") 200 (toL "body") JsonV.null
      (fun _ => ValResult.ok c6Card)).2 c6Card rfl).1,
   ((c6_validator_outcomes (toL "http://u") 200 (toL "body") JsonV.null
      (fun _ => ValResult.ok c6Card)).2 c6Card rfl).2.2.1⟩

/-- C7: per invocation the validator performs exactly one HTTP GET request
(no retries), and every transport-level failure of that single request —
timeout, connection error, HTTP error status, or a body that is not valid
JSON — results in printing an error message and exiting with status code 1. -/
theorem c7_single_get (url : List Char) (fetchO : HttpOutcome)
    (validate : JsonV → ValResult) :
    (validate_agent_card_from_url url fetchO validate).1.countP (fun e => isGet e) = 1 ∧
    (isTransportFailure fetchO = true →
      (validate_agent_card_from_url url fetchO validate).2 = some 1 ∧
      ∃ e ∈ (validate_agent_card_from_url url fetchO validate).1, isErrorEvent e = true) := by
  cases fetchO with
  | timeout =>
    refine ⟨by simp [validate_agent_card_from_url, List.countP_cons, isGet], ?_⟩
    intro _
    exact ⟨rfl, ⟨VEvent.errTimeout, by simp [validate_agent_card_from_url], rfl⟩⟩
  | connError =>
    refine ⟨by simp [validate_agent_card_from_url, List.countP_cons, isGet], ?_⟩
    intro _
    exact ⟨rfl, ⟨VEvent.errConnection url, by simp [validate_agent_card_from_url], rfl⟩⟩
  | httpError status text =>
    refine ⟨by simp [validate_agent_card_from_url, List.countP_cons, isGet], ?_⟩
    intro _
    exact ⟨rfl, ⟨VEvent.errHttpStatus status, by simp [validate_agent_card_from_url], rfl⟩⟩
  | ok status text json =>
    cases json with
    | none =>
      refine ⟨by simp [validate_agent_card_from_url, List.countP_cons, isGet], ?_⟩
      intro _
      exact ⟨rfl, ⟨VEvent.errInvalidJson, by simp [validate_agent_card_from_url], rfl⟩⟩
    | some j =>
      refine ⟨?_, ?_⟩
      · have hdetails : ∀ card : CardM,
            (printCardDetails card).countP (fun e => isGet e) = 0 := by
          intro card
          exact List.countP_eq_zero.mpr
            (fun a ha => by simp [printCardDetails_no_get card a ha])
        cases hv : validate j with
        | ok card =>
          simp only [validate_agent_card_from_url, afterFetch, hv]
          rw [List.countP_append, List.countP_append, hdetails card]
          simp [List.countP_cons, isGet]
        | err errs =>
          have hmap : (errs.map VEvent.valError).countP (fun e => isGet e) = 0 :=
            List.countP_eq_zero.mpr (fun a ha => by
              rcases List.mem_map.mp ha with ⟨x, _, rfl⟩
              simp [isGet])
          simp only [validate_agent_card_from_url, afterFetch, hv]
          rw [List.countP_append, List.countP_append, hmap]
          simp [List.countP_cons, isGet]
      · intro h
        simp [isTransportFailure] at h

/-- Witness for C7 at the timeout outcome: one GET event, exit status 1, an
error print present. -/
theorem c7_single_get_witness :
    (validate_agent_card_from_url (toL "http://u") HttpOutcome.timeout
      (fun _ => ValResult.err [])).1.countP (fun e => isGet e) = 1 ∧
    (validate_agent_card_from_url (toL "http://u") HttpOutcome.timeout
      (fun _ => ValResult.err [])).2 = some 1 ∧
    ∃ e ∈ (validate_agent_card_from_url (toL "http://u") HttpOutcome.timeout
      (fun _ => ValResult.err [])).1, isErrorEvent e = true :=
  ⟨(c7_single_get (toL "http://u") HttpOutcome.timeout (fun _ => ValResult.err [])).1,
   ((c7_single_get (toL "http://u") HttpOutcome.timeout (fun _ => ValResult.err [])).2 rfl).1,
   ((c7_single_get (toL "http://u") HttpOutcome.timeout (fun _ => ValResult.err [])).2 rfl).2⟩

/-- C8: if the agent-card JSON object fetched by `connect` lacks a
`'version'` key, `connect` inserts `'version': '1.0.0'` into the data before
passing it to the SDK's schema validation, so the data handed to validation
carries the required version field — whereas the standalone validator applies
no such fix-up and passes the fetched JSON to validation unchanged. -/
theorem c8_version_fixup (fields : List (List Char × JsonV)) :
    hasKey (toL "version") fields = false →
    fixVersion (JsonV.obj fields) =
      JsonV.obj (fields ++ [(toL "version", JsonV.str (toL "1.0.0"))]) ∧
    hasKey (toL "version") (fields ++ [(toL "version", JsonV.str (toL "1.0.0"))]) = true ∧
    (∀ fetch agent_url,
      (tryUrls fetch (get_agent_card_urls agent_url)).2 = some (JsonV.obj fields) →
      truthy (JsonV.obj fields) = true →
      connectStage fetch agent_url = ConnectStage.toValidate
        (JsonV.obj (fields ++ [(toL "version", JsonV.str (toL "1.0.0"))]))) ∧
    (∀ url status text validate,
      validate_agent_card_from_url url
          (HttpOutcome.ok status text (some (JsonV.obj fields))) validate =
        afterFetch url status text (JsonV.obj fields) (validate (JsonV.obj fields))) := by
  intro h
  refine ⟨by simp [fixVersion, h], by simp [hasKey], ?_, ?_⟩
  · intro fetch agent_url h2 htr
    simp [connectStage, h2, htr, fixVersion, h]
  · intro url status text validate
    rfl

/-- Witness for C8 at a one-field card object lacking `'version'`, reaching
validation through a fetch oracle whose first candidate URL returns it. -/
theorem c8_version_fixup_witness :
    fixVersion (JsonV.obj [(toL "name", JsonV.str (toL "a"))]) =
      JsonV.obj ([(toL "name", JsonV.str (toL "a"))] ++
        [(toL "version", JsonV.str (toL "1.0.0"))]) ∧
    hasKey (toL "version") ([(toL "name", JsonV.str (toL "a"))] ++
      [(toL "version", JsonV.str (toL "1.0.0"))]) = true ∧
    connectStage (fun _ => FetchOutcome.resp 200
        (some (JsonV.obj [(toL "name", JsonV.str (toL "a"))]))) (toL "http://x/a2a") =
      ConnectStage.toValidate (JsonV.obj ([(toL "name", JsonV.str (toL "a"))] ++
        [(toL "version", JsonV.str (toL "1.0.0"))])) :=
  ⟨(c8_version_fixup [(toL "name", JsonV.str (toL "a"))] (by decide)).1,
   (c8_version_fixup [(toL "name", JsonV.str (toL "a"))] (by decide)).2.1,
   (c8_version_fixup [(toL "name", JsonV.str (toL "a"))] (by decide)).2.2.1
     (fun _ => FetchOutcome.resp 200
       (some (JsonV.obj [(toL "name", JsonV.str (toL "a"))]))) (toL "http://x/a2a")
     rfl rfl⟩

/-! Section: `SimpleA2AClient.end_conversation` (lines 296-323) -/

/-- The client state `end_conversation` touches: the agent URL and client
handles (abstracted to a `connected` flag) and the current task. -/
structure ClientState where
  agent_url : List Char
  connected : Bool
  currentTask : Option TaskM
deriving DecidableEq

/-- Outcome of the `await self.client.send_task_status_update(...)` call (and
of building the status-update event): success, or any raised exception. -/
inductive SendOutcome where
  | success
  | raised
deriving DecidableEq

/-- Observable actions of `end_conversation`. -/
inductive EndEvent where
  | noActive
  | sentCompleted (taskId : List Char)
  | endedOk
  | errorClearedLocally
deriving DecidableEq

/-- Embedding of `end_conversation`: with no current task it prints and
returns leaving the state untouched; otherwise it sends a `completed` status
update for the current task and clears `current_task`, and on an exception
the handler clears `current_task` locally as well. -/
def end_conversation (st : ClientState) (send : SendOutcome) :
    ClientState × List EndEvent :=
  match st.currentTask with
  | none => (st, [EndEvent.noActive])
  | some t =>
    match send with
    | SendOutcome.success =>
      ({ st with currentTask := none }, [EndEvent.sentCompleted t.id, EndEvent.endedOk])
    | SendOutcome.raised =>
      ({ st with currentTask := none }, [EndEvent.errorClearedLocally])

/-- C9: whenever `end_conversation` is called with an active conversation
(`current_task` not `None`), `current_task` is `None` when it returns — both
when sending the status update succeeds and when it raises — and when no
conversation is active, `end_conversation` leaves all client state
unchanged. -/
theorem c9_end_conversation (st : ClientState) (send : SendOutcome) :
    (st.currentTask ≠ none → (end_conversation st send).1.currentTask = none) ∧
    (st.currentTask = none → (end_conversation st send).1 = st) := by
  constructor
  · intro h
    cases hc : st.currentTask with
    | none => exact absurd hc h
    | some t => cases send <;> simp [end_conversation, hc]
  · intro h
    simp [end_conversation, h]

/-- Witness for C9: a concrete active state is cleared under both send
outcomes, and an inactive state is returned unchanged. -/
theorem c9_end_conversation_witness :
    (end_conversation ⟨toL "http://u", true,
      some ⟨toL "t", ⟨some TaskStateM.working, none⟩, []⟩⟩ SendOutcome.success).1.currentTask = none ∧
    (end_conversation ⟨toL "http://u", true,
      some ⟨toL "t", ⟨some TaskStateM.working, none⟩, []⟩⟩ SendOutcome.raised).1.currentTask = none ∧
    (end_conversation ⟨toL "http://u", true, none⟩ SendOutcome.raised).1 =
      ⟨toL "http://u", true, none⟩ :=
  ⟨(c9_end_conversation ⟨toL "http://u", true,
      some ⟨toL "t", ⟨some TaskStateM.working, none⟩, []⟩⟩ SendOutcome.success).1 (by decide),
   (c9_end_conversation ⟨toL "http://u", true,
      some ⟨toL "t", ⟨some TaskStateM.working, none⟩, []⟩⟩ SendOutcome.raised).1 (by decide),
   (c9_end_conversation ⟨toL "http://u", true, none⟩ SendOutcome.raised).2 rfl⟩

/-! Section: The validator's `main` (lines 137-151) -/

/-- What `main` decides to do: exit with a status code before any network
request, or fetch the given URL (by calling `validate_agent_card_from_url`). -/
inductive MainAction where
  | exitEarly (code : Nat)
  | fetchUrl (url : List Char)
deriving DecidableEq

/-- Line 146: `url.startswith(('http://', 'https://'))`. -/
def urlSchemeOk (url : List Char) : Bool :=
  (toL "http://").isPrefixOf url || (toL "https://").isPrefixOf url

/-- Embedding of the validator's `main`: `sys.argv` must have exactly two
entries (program name and URL) and the URL must start with `http://` or
`https://`; otherwise it exits with status 1 before any network request. -/
def validatorMain (argv : List (List Char)) : MainAction :=
  if argv.length ≠ 2 then MainAction.exitEarly 1
  else
    let url := argv.getD 1 []
    if urlSchemeOk url then MainAction.fetchUrl url else MainAction.exitEarly 1

/-- C10: the validator's `main` exits with status code 1 before issuing any
network request whenever the command line does not contain exactly one
argument after the program name, or whenever that argument does not start
with `http://` or `https://`; only a URL passing both checks is ever
fetched. -/
theorem c10_main_guards (argv : List (List Char)) :
    (argv.length ≠ 2 → validatorMain argv = MainAction.exitEarly 1) ∧
    (∀ prog url, argv = [prog, url] → urlSchemeOk url = false →
      validatorMain argv = MainAction.exitEarly 1) ∧
    (∀ u, validatorMain argv = MainAction.fetchUrl u →
      argv.length = 2 ∧ argv.getD 1 [] = u ∧ urlSchemeOk u = true) := by
  refine ⟨?_, ?_, ?_⟩
  · intro h
    simp [validatorMain, h]
  · intro prog url hargv hscheme
    subst hargv
    simp [validatorMain, hscheme]
  · intro u h
    by_cases hl : argv.length = 2
    · rw [validatorMain, if_neg (not_not_intro hl)] at h
      by_cases hs : urlSchemeOk (argv.getD 1 []) = true
      · rw [if_pos hs] at h
        cases h
        exact ⟨hl, rfl, hs⟩
      · rw [if_neg hs] at h
        simp at h
    · rw [validatorMain, if_pos hl] at h
      simp at h

/-- Witness for C10: a missing argument and a non-HTTP scheme both exit
early; a well-formed HTTP URL is the one fetched. -/
theorem c10_main_guards_witness :
    validatorMain [toL "prog"] = MainAction.exitEarly 1 ∧
    validatorMain [toL "prog", toL "ftp://x"] = MainAction.exitEarly 1 ∧
    ([toL "prog", toL "http://x"].length = 2 ∧
      [toL "prog", toL "http://x"].getD 1 [] = toL "http://x" ∧
      urlSchemeOk (toL "http://x") = true) :=
  ⟨(c10_main_guards [toL "prog"]).1 (by decide),
   (c10_main_guards [toL "prog", toL "ftp://x"]).2.1 (toL "prog") (toL "ftp://x")
     rfl (by decide),
   (c10_main_guards [toL "prog", toL "http://x"]).2.2 (toL "http://x") (by decide)⟩

end Banterop
